import Mathlib

/-!
# Verification of the Market-alert-app signal/alert engine

Shallow embedding of `src/App.py` (streamlit market-alert dashboard).
Python float values that may be NaN are modelled as `Option ℚ` (`none` is a
non-finite / missing value); every comparison against a `none` value is
`false`, matching IEEE-754 comparisons with NaN.  The pandas frames are
modelled by a `MarketState` carrying, for every ticker symbol, the latest
price, the latest 200-day moving average, the previous row of both, and a
presence flag modelling whether the ticker is a column of the frame
(`Series.get` returns the default for an absent key).
-/

/-- A Python float that may be NaN / missing: `none` models a non-finite or
undefined value. -/
abbrev NVal := Option ℚ

/-- `a >= b` under Python/NumPy semantics: comparisons with NaN are false. -/
def nge (a b : NVal) : Bool :=
  match a, b with
  | some x, some y => x ≥ y
  | _, _ => false

/-- `a > b` under Python/NumPy semantics: comparisons with NaN are false. -/
def ngt (a b : NVal) : Bool :=
  match a, b with
  | some x, some y => x > y
  | _, _ => false

/-- `a < b` under Python/NumPy semantics: comparisons with NaN are false. -/
def nlt (a b : NVal) : Bool :=
  match a, b with
  | some x, some y => x < y
  | _, _ => false

/-- Subtraction propagating non-finite operands. -/
def nsub (a b : NVal) : NVal :=
  match a, b with
  | some x, some y => some (x - y)
  | _, _ => none

/-- Multiplication propagating non-finite operands. -/
def nmul (a b : NVal) : NVal :=
  match a, b with
  | some x, some y => some (x * y)
  | _, _ => none

/-- Division propagating non-finite operands; a zero divisor yields a
non-finite float (inf/NaN) in NumPy, modelled here as `none`. -/
def ndiv (a b : NVal) : NVal :=
  match a, b with
  | some x, some y => if y = 0 then none else some (x / y)
  | _, _ => none

/-- The ticker lists configured at the top of `App.py`. -/
def portfolio_stocks : List String := ["AAPL", "MSFT"]

def portfolio_equity_etfs : List String := ["SPY", "QQQ", "IWM", "EEM"]

def sector_etfs : List String :=
  ["XLE", "XLB", "XLI", "XLY", "XLV", "XLF", "XLK", "XLC", "XLRE", "XLU", "XLP"]

def bond_etfs : List String := ["TLT"]

def commodity_etfs : List String := ["GLD"]

def market_indicators : List String := ["^VIX", "^TNX"]

/-- The per-cycle state read by the alert logic of `App.py`:
`latest_price t` models `latest_prices[t]` (= `prices.iloc[-1][t]`),
`latest_ma t` models `latest_ma200[t]` (= `ma200.iloc[-1][t]`),
`prev_price t` / `prev_ma t` model `prices[t].iloc[-2]` / `ma200[t].iloc[-2]`,
and `present t` models whether `t` is a key of the frames (so that
`latest_prices.get(t, default)` returns the stored value rather than the
default).  A stored `none` models a stored NaN. -/
structure MarketState where
  present : String → Bool
  latest_price : String → NVal
  latest_ma : String → NVal
  prev_price : String → NVal
  prev_ma : String → NVal

/-- `latest_prices.get(t, d)`: the stored value when the key is present,
otherwise the default `d`. -/
def price_get (st : MarketState) (t : String) (d : NVal) : NVal :=
  if st.present t then st.latest_price t else d

/-- `latest_ma200.get(t, d)`: the stored value when the key is present,
otherwise the default `d`. -/
def ma_get (st : MarketState) (t : String) (d : NVal) : NVal :=
  if st.present t then st.latest_ma t else d

/-- Result of `momentum_status(ticker)` in `App.py`: the rendered string is
`"No data"`, or starts with the above/below arrow and carries the printed
percentage distance (which is NaN when the price is NaN). -/
inductive MomStatus where
  | noData : MomStatus
  | above (diff : NVal) : MomStatus
  | below (diff : NVal) : MomStatus
deriving DecidableEq

/-- `momentum_status` from `App.py` lines 51-61: `"No data"` iff the MA is
NaN; otherwise the above branch when `price >= ma` (false for a NaN price),
with distance `(price - ma) / ma * 100` above and `(ma - price) / ma * 100`
below. -/
def momentum_status (price ma : NVal) : MomStatus :=
  match ma with
  | none => .noData
  | some m =>
    if nge price (some m) then
      .above (nmul (ndiv (nsub price (some m)) (some m)) (some 100))
    else
      .below (nmul (ndiv (nsub (some m) price) (some m)) (some 100))

/-- Whether a `momentum_status` result string starts with the "above"
arrow (`status.startswith("🔺")` in `App.py` line 87). -/
def isAboveStatus : MomStatus → Bool
  | .above _ => true
  | _ => false

/-- `sectors_above` from `App.py` lines 83-88: the number of sector ETFs
whose momentum status is the "above 200-day MA" arrow.  The source indexes
`latest_prices[sec]` directly, which presumes the ticker is a column
(otherwise the program raises before reaching the alert logic); every state
considered by the theorems below keeps all tickers present, so reading the
stored value directly is exact there. -/
def sectors_above (st : MarketState) : ℕ :=
  (sector_etfs.filter fun s =>
    isAboveStatus (momentum_status (st.latest_price s) (st.latest_ma s))).length

/-- Zero-pad a digit string on the left to `d` characters. -/
def padZeros (s : String) (d : ℕ) : String :=
  (List.replicate (d - s.length) '0').asString ++ s

/-- Model of Python fixed-point formatting `f"{q:.df}"`: the value rounded
to `d` decimal places (rounding to nearest; the exact tie-breaking of the
binary floats is immaterial to every property proved here). -/
def fmtQ (d : ℕ) (q : ℚ) : String :=
  let n : ℤ := round (q * (10 : ℚ) ^ d)
  let sgn := if n < 0 then "-" else ""
  let a := n.natAbs
  sgn ++ toString (a / 10 ^ d) ++ "." ++ padZeros (toString (a % 10 ^ d)) d

/-- Fixed-point formatting of a possibly-NaN value (`f"{nan:.1f}"` renders
as `"nan"`). -/
def fmtN (d : ℕ) (v : NVal) : String :=
  match v with
  | some q => fmtQ d q
  | none => "nan"

/-! ## The alert messages of `App.py` lines 119-170 -/

def m_fell : String :=
  "SPY **fell below** its 200-day moving average. This momentum shift suggests increasing caution on equities."

def m_remain : String :=
  "SPY remains below its 200-day moving average, indicating continued weak momentum for equities."

def m_climb : String :=
  "SPY **climbed back above** its 200-day moving average, signaling improving momentum. Consider increasing equity exposure."

def vhigh_pre : String := "Market volatility is **very high** (VIX ≈ "

def vhigh_suf : String := "). Consider hedging or reducing risk exposure."

def m_vhigh (v : NVal) : String := vhigh_pre ++ (fmtN 1 v ++ vhigh_suf)

def elev_pre : String := "Market volatility is elevated (VIX ≈ "

def elev_suf : String := "). Caution is advised with risk assets."

def m_elev (v : NVal) : String := elev_pre ++ (fmtN 1 v ++ elev_suf)

def yield_pre : String := "10-Year Treasury yield is **"

def yield_suf : String :=
  "%**, which is relatively high. High rates can pressure stocks and make bonds more attractive."

def m_yield (y : NVal) : String := yield_pre ++ (fmtN 2 y ++ yield_suf)

def weak_pre : String := "Only **"

def weak_suf : String :=
  " of 11** sectors are above their 200-day MA. Market breadth is very weak, reflecting a **Risk-Off** environment."

def breadth_weak_msg (n : ℕ) : String := weak_pre ++ (toString n ++ weak_suf)

def strong_pre : String := "**"

def strong_suf : String :=
  " of 11** sectors are above their 200-day MA. Market breadth is strong, reflecting a broad **Risk-On** rally."

def breadth_strong_msg (n : ℕ) : String := strong_pre ++ (toString n ++ strong_suf)

def msg_xly_strong : String :=
  "Consumer Discretionary (XLY) is strong while Staples (XLP) lag, indicating investors are leaning **Risk-On**."

def msg_xlp_strong : String :=
  "Consumer Staples (XLP) is outperforming XLY, indicating a shift to **Risk-Off** defensive positioning."

def m_tlt : String :=
  "Treasury bonds (TLT) are in an uptrend while equities are weak – a possible flight to safety into bonds."

/-! ## The alert segments, in the order `App.py` appends them -/

/-- Block 1 (`App.py` lines 123-137), SPY momentum alerts.  The guard is
`spy_price is not None and not pd.isna(spy_ma)` where both come from `.get`,
i.e. SPY is present and its latest MA is not NaN. -/
def seg_spy (st : MarketState) : List String :=
  if st.present "SPY" && (st.latest_ma "SPY").isSome then
    if nlt (st.latest_price "SPY") (st.latest_ma "SPY") then
      if nge (st.prev_price "SPY") (st.prev_ma "SPY") then [m_fell] else [m_remain]
    else
      if nlt (st.prev_price "SPY") (st.prev_ma "SPY") then [m_climb] else []
  else []

/-- `vix_level = latest_prices["^VIX"]` (`App.py` line 97): direct bracket
access, which presumes the ticker is a column (the program raises earlier
otherwise); all states considered by the theorems keep every ticker
present. -/
def vix_level (st : MarketState) : NVal := st.latest_price "^VIX"

/-- Block 2 (`App.py` lines 139-144), volatility alerts. -/
def seg_vix (st : MarketState) : List String :=
  if ngt (vix_level st) (some 20) then
    if nge (vix_level st) (some 30) then [m_vhigh (vix_level st)]
    else [m_elev (vix_level st)]
  else []

/-- `ten_year_yield = latest_prices["^TNX"] / 10.0` (`App.py` lines
102-103): direct bracket access, which presumes the ticker is a column (the
program raises earlier otherwise); all states considered by the theorems
keep every ticker present. -/
def ten_year_yield (st : MarketState) : NVal :=
  ndiv (st.latest_price "^TNX") (some 10)

/-- Block 3 (`App.py` lines 146-148), bond yield alert. -/
def seg_yield (st : MarketState) : List String :=
  if nge (ten_year_yield st) (some 4) then [m_yield (ten_year_yield st)] else []

/-- Block 4 (`App.py` lines 151-155), sector breadth alerts. -/
def seg_breadth (st : MarketState) : List String :=
  if sectors_above st ≤ 3 then [breadth_weak_msg (sectors_above st)]
  else if 8 ≤ sectors_above st then [breadth_strong_msg (sectors_above st)]
  else []

/-- `xly_above = latest_prices.get("XLY", 0) >= latest_ma200.get("XLY", float('nan'))`
(`App.py` line 158). -/
def xly_above (st : MarketState) : Bool :=
  nge (price_get st "XLY" (some 0)) (ma_get st "XLY" none)

/-- `xlp_above = latest_prices.get("XLP", 0) >= latest_ma200.get("XLP", float('nan'))`
(`App.py` line 159). -/
def xlp_above (st : MarketState) : Bool :=
  nge (price_get st "XLP" (some 0)) (ma_get st "XLP" none)

/-- Block 5 (`App.py` lines 157-163), sector leadership alerts. -/
def seg_lead (st : MarketState) : List String :=
  if xly_above st && !xlp_above st then [msg_xly_strong]
  else if xlp_above st && !xly_above st then [msg_xlp_strong]
  else []

/-- Block 6 (`App.py` lines 165-170), safe-haven bond alert.  The guard is
`tlt_price is not None and spy_price is not None and not pd.isna(tlt_ma) and
not pd.isna(spy_ma)`. -/
def seg_tlt (st : MarketState) : List String :=
  if st.present "TLT" && st.present "SPY" &&
      (st.latest_ma "TLT").isSome && (st.latest_ma "SPY").isSome then
    if ngt (st.latest_price "TLT") (st.latest_ma "TLT") &&
        nlt (st.latest_price "SPY") (st.latest_ma "SPY") then [m_tlt]
    else []
  else []

/-- The `alerts` list of `App.py` lines 121-170: the six blocks append their
messages in program order. -/
def alerts (st : MarketState) : List String :=
  seg_spy st ++ seg_vix st ++ seg_yield st ++ seg_breadth st ++ seg_lead st ++ seg_tlt st

/-! ## Severity assignment and display, `App.py` lines 172-181 -/

inductive Severity where
  | info | success | warning | critical
deriving DecidableEq

/-- The keyword list of `App.py` line 176. -/
def severity_keywords : List String :=
  ["caution", "weak", "risk-off", "high", "lag", "pressure", "hedging", "very high"]

/-- Python's substring test `needle in hay`. -/
def strContains (hay needle : String) : Bool :=
  (List.range (hay.data.length + 1)).any fun i =>
    needle.data.isPrefixOf (hay.data.drop i)

/-- Python's `str.lower()`: lowercase every character (the messages are
ASCII apart from caseless symbols). -/
def strLower (s : String) : String := ⟨s.data.map Char.toLower⟩

/-- The severity chosen for a fired alert by `App.py` lines 176-179: keyword
scan of the lowercased message text; `st.warning` on a hit, `st.success`
otherwise. -/
def classify (msg : String) : Severity :=
  if severity_keywords.any (fun w => strContains (strLower msg) w) then .warning
  else .success

/-- A displayed alert record: the rendered message and the severity of the
streamlit box used for it. -/
structure Alert where
  message : String
  severity : Severity
deriving DecidableEq

def no_alerts_msg : String :=
  "✅ No immediate alerts. The portfolio aligns with current market conditions."

/-- The display loop of `App.py` lines 172-181: each fired alert is shown
with the bell prefix in a warning or success box chosen by keyword scan; if
no alert fired, a single info box is shown. -/
def displayed (st : MarketState) : List Alert :=
  if (alerts st).isEmpty then [⟨no_alerts_msg, .info⟩]
  else (alerts st).map fun a => ⟨"🔔 " ++ a, classify a⟩

/-! ## The inline 3-month-return computation, `App.py` lines 110-113 -/

/-- `series[i]`: the stored value at index `i`, undefined out of range. -/
def atIdx (s : List NVal) (i : ℕ) : NVal :=
  s.getD i none

/-- `s.iloc[-k]` for a positive `k`: the element `k` places from the end
(out-of-range access is undefined; the callers below stay in range). -/
def ilocNeg (s : List NVal) (k : ℕ) : NVal :=
  atIdx s (s.length - k)

/-- The 3-month-return computation of `App.py` line 111, as a percentage:
`(prices["XLY"].iloc[-1] / prices["XLY"].iloc[-63] - 1) * 100`, guarded by
`len(prices) > 63`; the outer `Option` is whether the guard passed. -/
def xly_return_3m (s : List NVal) : Option NVal :=
  if 63 < s.length then
    some (nmul (nsub (ndiv (ilocNeg s 1) (ilocNeg s 63)) (some 1)) (some 100))
  else none

/-- Modelled from the spec: `rolling_return(series, lookback)` at index `i`,
`(series[i] - series[i-lookback]) / series[i-lookback]`; undefined for
`i < lookback`, and undefined (not infinite) when `series[i-lookback] == 0`
(`ndiv` already yields `none` on a zero divisor).  This definition follows
the spec's words and is compared against the source's `xly_return_3m`. -/
def rolling_return_spec (s : List NVal) (lookback i : ℕ) : NVal :=
  if i < lookback then none
  else ndiv (nsub (atIdx s i) (atIdx s (i - lookback))) (atIdx s (i - lookback))

/-! ## Concrete inputs used by the counterexamples and witnesses -/

/-- A 64-point price series: first two points 1 and 2, then flat at 1,
closing at 3. -/
def cs3 : List NVal := [some 1, some 2] ++ List.replicate 61 (some 1) ++ [some 3]

/-- Spec scenario 1: SPY at 95 under a 200-day MA of 100, having been at 101
over a MA of 100 the period before; every other series NaN. -/
def cs4 : MarketState where
  present := fun _ => true
  latest_price := fun t => if t == "SPY" then some 95 else none
  latest_ma := fun t => if t == "SPY" then some 100 else none
  prev_price := fun t => if t == "SPY" then some 101 else none
  prev_ma := fun t => if t == "SPY" then some 100 else none

/-- Spec scenario 2: VIX at 32, every other series NaN. -/
def cs6 : MarketState where
  present := fun _ => true
  latest_price := fun t => if t == "^VIX" then some 32 else none
  latest_ma := fun _ => none
  prev_price := fun _ => none
  prev_ma := fun _ => none

/-- VIX at 25 (the elevated band), every other series NaN. -/
def cs6e : MarketState where
  present := fun _ => true
  latest_price := fun t => if t == "^VIX" then some 25 else none
  latest_ma := fun _ => none
  prev_price := fun _ => none
  prev_ma := fun _ => none

/-- VIX exactly at 20, every other series NaN. -/
def cs10a : MarketState where
  present := fun _ => true
  latest_price := fun t => if t == "^VIX" then some 20 else none
  latest_ma := fun _ => none
  prev_price := fun _ => none
  prev_ma := fun _ => none

/-- VIX exactly at 30, every other series NaN. -/
def cs10b : MarketState where
  present := fun _ => true
  latest_price := fun t => if t == "^VIX" then some 30 else none
  latest_ma := fun _ => none
  prev_price := fun _ => none
  prev_ma := fun _ => none

/-- Spec scenario 3: exactly three sector ETFs (XLE, XLB, XLI) above their
200-day MA, the other eight below; every non-sector series NaN. -/
def cs5 : MarketState where
  present := fun _ => true
  latest_price := fun t =>
    if t == "XLE" || t == "XLB" || t == "XLI" then some 100
    else if t == "XLY" || t == "XLV" || t == "XLF" || t == "XLK" || t == "XLC" ||
        t == "XLRE" || t == "XLU" || t == "XLP" then some 80
    else none
  latest_ma := fun t =>
    if t == "XLE" || t == "XLB" || t == "XLI" || t == "XLY" || t == "XLV" ||
        t == "XLF" || t == "XLK" || t == "XLC" || t == "XLRE" || t == "XLU" ||
        t == "XLP" then some 90
    else none
  prev_price := fun _ => none
  prev_ma := fun _ => none

/-- Five sector ETFs (XLE, XLB, XLI, XLY, XLV) above their 200-day MA, six
(including XLP) below; every non-sector series NaN.  The only fired alert is
the risk-on XLY-leadership alert. -/
def csC1 : MarketState where
  present := fun _ => true
  latest_price := fun t =>
    if t == "XLE" || t == "XLB" || t == "XLI" || t == "XLY" || t == "XLV" then some 100
    else if t == "XLF" || t == "XLK" || t == "XLC" || t == "XLRE" || t == "XLU" ||
        t == "XLP" then some 80
    else none
  latest_ma := fun t =>
    if t == "XLE" || t == "XLB" || t == "XLI" || t == "XLY" || t == "XLV" ||
        t == "XLF" || t == "XLK" || t == "XLC" || t == "XLRE" || t == "XLU" ||
        t == "XLP" then some 90
    else none
  prev_price := fun _ => none
  prev_ma := fun _ => none

/-- A cycle with every ticker present as a column in which XLY's latest
200-day MA is NaN (short/gapped history) while XLP trades above its MA;
every other MA is NaN as well. -/
def csC2 : MarketState where
  present := fun _ => true
  latest_price := fun t =>
    if t == "XLY" || t == "XLP" then some 100 else none
  latest_ma := fun t => if t == "XLP" then some 90 else none
  prev_price := fun _ => none
  prev_ma := fun _ => none

/-! ## Spec-modelled components absent from `src/App.py`

The repository consists of near-duplicate variants of the dashboard; the
variant included under `src/` has no portfolio-position logic and no
cross-cycle alert log (its `alerts` list is rebuilt by every rerun).  The
two components below are therefore modelled from the spec's words
(§4.3 rule group 8 and §4.4) and verified against those definitions. -/

/-- Modelled from the spec: a configured portfolio position —
`(instrument, shares held, target price, stop-loss price)` (§3,
PortfolioPosition).  Absent from `src/App.py`. -/
structure PortfolioPosition where
  symbol : String
  shares : ℚ
  target : ℚ
  stop_loss : ℚ

/-- The message of a stop-loss alert for one position. -/
def stop_msg (symbol : String) : String :=
  "Stop-loss breached for " ++ symbol ++
    ": the current price is below the configured stop."

/-- Modelled from the spec: the stop-loss rule of §4.3 group 8 and
scenario 4, absent from `src/App.py` — evaluated once per configured
position as a pure threshold comparison with no cross-position dependency;
a current price strictly below the position's stop-loss price fires a
critical-severity alert, otherwise nothing is emitted for that rule. -/
def stop_loss_alerts (positions : List PortfolioPosition)
    (current : String → Option ℚ) : List Alert :=
  positions.filterMap fun p =>
    match current p.symbol with
    | none => none
    | some c =>
      if c < p.stop_loss then some ⟨stop_msg p.symbol, .critical⟩ else none

/-- The AAPL position of the spec's end-to-end scenario 4 (stop-loss
130.0). -/
def aaplPos : PortfolioPosition := ⟨"AAPL", 10, 150, 130⟩

/-- Prices with AAPL at 129.99. -/
def cur1 : String → Option ℚ := fun _ => some (12999 / 100)

/-- Prices with AAPL at 130.01. -/
def cur2 : String → Option ℚ := fun _ => some (13001 / 100)

/-- Modelled from the spec: the Alert Log of §4.4, absent from
`src/App.py` — a fixed-capacity ring buffer whose `entries` hold the
retained alerts most recent first. -/
structure AlertLog where
  capacity : ℕ
  entries : List Alert

/-- An empty log of the given capacity. -/
def AlertLog.empty (cap : ℕ) : AlertLog := ⟨cap, []⟩

/-- Modelled from the spec: `append(alert)`, the only mutator — the new
alert becomes the most recent entry and entries beyond the capacity are
evicted oldest first. -/
def AlertLog.append (log : AlertLog) (a : Alert) : AlertLog :=
  ⟨log.capacity, (a :: log.entries).take log.capacity⟩

/-- Modelled from the spec: `recent(n)` — the `n` most recent alerts, most
recent first. -/
def AlertLog.recent (log : AlertLog) (n : ℕ) : List Alert :=
  log.entries.take n

/-- Append a batch of alerts to the log in order (oldest of the batch
first). -/
def appendAll (log : AlertLog) (l : List Alert) : AlertLog :=
  l.foldl AlertLog.append log

/-- Three distinct alerts appended in order to a capacity-2 log. -/
def csLog : List Alert :=
  [⟨"first", Severity.info⟩, ⟨"second", Severity.warning⟩,
    ⟨"third", Severity.critical⟩]

/-! ## Helper lemmas: distinguishing the alert messages -/

lemma ne_of_head {s t : String} {a b : Char} (hs : s.data.head? = some a)
    (ht : t.data.head? = some b) (hab : a ≠ b) : s ≠ t := by
  intro he
  subst he
  rw [hs] at ht
  exact hab (Option.some.inj ht)

lemma head_append {a x : String} {c : Char} (h : a.data.head? = some c) :
    (a ++ x).data.head? = some c := by
  rw [String.data_append, List.head?_append, h]
  rfl

lemma ne_of_take {s t : String} (n : ℕ) (h : s.data.take n ≠ t.data.take n) :
    s ≠ t := fun he => h (by rw [he])

lemma take_append_left {a x : String} {n : ℕ} (h : n ≤ a.data.length) :
    (a ++ x).data.take n = a.data.take n := by
  rw [String.data_append, List.take_append_eq_append_take, Nat.sub_eq_zero_of_le h]
  simp

lemma head_m_vhigh (v : NVal) : (m_vhigh v).data.head? = some 'M' :=
  head_append rfl

lemma head_m_elev (v : NVal) : (m_elev v).data.head? = some 'M' :=
  head_append rfl

lemma head_m_yield (y : NVal) : (m_yield y).data.head? = some '1' :=
  head_append rfl

lemma head_weak (n : ℕ) : (breadth_weak_msg n).data.head? = some 'O' :=
  head_append rfl

lemma head_strong (n : ℕ) : (breadth_strong_msg n).data.head? = some '*' :=
  head_append rfl

lemma m_vhigh_ne_elev (v w : NVal) : m_vhigh v ≠ m_elev w :=
  ne_of_take 25 (by
    rw [show m_vhigh v = vhigh_pre ++ (fmtN 1 v ++ vhigh_suf) from rfl,
      show m_elev w = elev_pre ++ (fmtN 1 w ++ elev_suf) from rfl,
      take_append_left (by decide), take_append_left (by decide)]
    decide)

/-! ## Helper lemmas: membership in the alert segments -/

lemma mem_alerts {st : MarketState} {m : String} :
    m ∈ alerts st ↔
      m ∈ seg_spy st ∨ m ∈ seg_vix st ∨ m ∈ seg_yield st ∨ m ∈ seg_breadth st ∨
        m ∈ seg_lead st ∨ m ∈ seg_tlt st := by
  simp [alerts, or_assoc]

lemma mem_seg_spy {st : MarketState} {m : String} (h : m ∈ seg_spy st) :
    m = m_fell ∨ m = m_remain ∨ m = m_climb := by
  unfold seg_spy at h
  split at h
  · split at h
    · split at h <;> simp_all
    · split at h <;> simp_all
  · simp_all

lemma mem_seg_vix {st : MarketState} {m : String} (h : m ∈ seg_vix st) :
    m = m_vhigh (vix_level st) ∨ m = m_elev (vix_level st) := by
  unfold seg_vix at h
  split at h
  · split at h <;> simp_all
  · simp_all

lemma mem_seg_yield {st : MarketState} {m : String} (h : m ∈ seg_yield st) :
    m = m_yield (ten_year_yield st) := by
  unfold seg_yield at h
  split at h <;> simp_all

lemma mem_seg_breadth {st : MarketState} {m : String} (h : m ∈ seg_breadth st) :
    m = breadth_weak_msg (sectors_above st) ∨ m = breadth_strong_msg (sectors_above st) := by
  unfold seg_breadth at h
  split at h
  · simp_all
  · split at h <;> simp_all

lemma mem_seg_lead {st : MarketState} {m : String} (h : m ∈ seg_lead st) :
    m = msg_xly_strong ∨ m = msg_xlp_strong := by
  unfold seg_lead at h
  split at h
  · simp_all
  · split at h <;> simp_all

lemma mem_seg_tlt {st : MarketState} {m : String} (h : m ∈ seg_tlt st) :
    m = m_tlt := by
  unfold seg_tlt at h
  split at h
  · split at h <;> simp_all
  · simp_all

set_option maxRecDepth 10000

/-! ## Arithmetic helper lemmas -/

/-- `(a/b - 1) * 100` and `((a - b)/b) * 100` agree under the NaN-propagating
arithmetic, including the zero-divisor and non-finite cases. -/
lemma div_sub_one_eq (a b : NVal) :
    nmul (nsub (ndiv a b) (some 1)) (some 100) =
      nmul (ndiv (nsub a b) b) (some 100) := by
  cases a with
  | none => cases b <;> simp [ndiv, nsub, nmul]
  | some x =>
    cases b with
    | none => simp [ndiv, nsub, nmul]
    | some y =>
      by_cases hy : y = 0
      · simp [ndiv, nsub, nmul, hy]
      · simp only [ndiv, nsub, nmul, if_neg hy]
        norm_num
        field_simp

/-! ## Claim C3 -/

/-- Claim C3 counterexample: on a concrete 64-point series whose first two
values differ, the code's "3-month return" (`App.py` line 111) is 50%, while
the spec's `rolling_return` with lookback 63 at the last index gives 200%:
the code compares `iloc[-1]` against `iloc[-63]`, which is 62 periods
earlier, not 63. -/
theorem claim_C3_counterexample :
    cs3.length = 64 ∧
    xly_return_3m cs3 = some (some 50) ∧
    nmul (rolling_return_spec cs3 63 63) (some 100) = some 200 ∧
    xly_return_3m cs3 ≠ some (nmul (rolling_return_spec cs3 63 63) (some 100)) := by
  have h1 : ilocNeg cs3 1 = some 3 := by decide
  have h63 : ilocNeg cs3 63 = some 2 := by decide
  have hlen : 63 < cs3.length := by decide
  have ha : atIdx cs3 63 = some 3 := by decide
  have hb : atIdx cs3 0 = some 1 := by decide
  have hcode : xly_return_3m cs3 = some (some 50) := by
    rw [xly_return_3m, if_pos hlen, h1, h63]
    norm_num [ndiv, nsub, nmul]
  have hspec : nmul (rolling_return_spec cs3 63 63) (some 100) = some 200 := by
    rw [rolling_return_spec, if_neg (by decide)]
    norm_num [ha, hb, ndiv, nsub, nmul]
  refine ⟨by decide, hcode, hspec, ?_⟩
  rw [hcode, hspec]
  simp only [ne_eq, Option.some.injEq]
  norm_num

/-- Claim C3 (amended): whenever the series has more than 63 points, the
code's "3-month return" equals the spec's `rolling_return` with a lookback
of 62 (not 63) at the last index, scaled to percent: the latest price is
compared against the price 62 periods earlier. -/
theorem claim_C3_thm (s : List NVal) (h : 63 < s.length) :
    xly_return_3m s = some (nmul (rolling_return_spec s 62 (s.length - 1)) (some 100)) := by
  have hn : ¬s.length - 1 < 62 := by omega
  have hidx : s.length - 1 - 62 = s.length - 63 := by omega
  rw [xly_return_3m, if_pos h, rolling_return_spec, if_neg hn, hidx]
  simp only [ilocNeg]
  exact congrArg some (div_sub_one_eq _ _)

/-- Witness for claim C3: the amended statement applied to the concrete
64-point series. -/
theorem claim_C3_witness :
    63 < cs3.length ∧
    xly_return_3m cs3 = some (nmul (rolling_return_spec cs3 62 (cs3.length - 1)) (some 100)) :=
  ⟨by decide, claim_C3_thm cs3 (by decide)⟩

/-! ## Claim C7 -/

/-- Claim C7 counterexample: for price 90 and MA 100 the code reports the
positive magnitude 10, not the signed distance −10; and for a NaN price with
a defined MA the code reports "below", not "no data". -/
theorem claim_C7_counterexample :
    momentum_status (some 90) (some 100) = MomStatus.below (some 10) ∧
    MomStatus.below (some 10) ≠
      MomStatus.below (some (((90 : ℚ) - 100) / 100 * 100)) ∧
    momentum_status none (some 100) ≠ MomStatus.noData := by
  refine ⟨?_, ?_, ?_⟩
  · unfold momentum_status
    norm_num [nge, ndiv, nsub, nmul]
  · simp only [ne_eq, MomStatus.below.injEq, Option.some.injEq]
    norm_num
  · unfold momentum_status
    simp [nge, ndiv, nsub, nmul]

/-- Claim C7 (amended): the price-vs-MA signal is "above" when the latest
price is at least the latest MA, "below" otherwise — including when the
price is NaN — and "no data" exactly when the latest MA is undefined; the
reported percent distance is the unsigned magnitude, `(price − ma)/ma·100`
above and `(ma − price)/ma·100` below. -/
lemma momentum_status_some (price : NVal) (m : ℚ) :
    momentum_status price (some m) =
      if nge price (some m) then
        MomStatus.above (nmul (ndiv (nsub price (some m)) (some m)) (some 100))
      else
        MomStatus.below (nmul (ndiv (nsub (some m) price) (some m)) (some 100)) := rfl

theorem claim_C7_thm (p m : ℚ) (hm : m ≠ 0) :
    (m ≤ p → momentum_status (some p) (some m) =
      MomStatus.above (some ((p - m) / m * 100))) ∧
    (p < m → momentum_status (some p) (some m) =
      MomStatus.below (some ((m - p) / m * 100))) ∧
    (∀ x : NVal, momentum_status x none = MomStatus.noData) ∧
    momentum_status none (some m) = MomStatus.below none := by
  refine ⟨fun h => ?_, fun h => ?_, fun x => rfl, ?_⟩
  · have hb : nge (some p) (some m) = true := by
      simp only [nge, decide_eq_true_eq]
      exact h
    rw [momentum_status_some, hb]
    simp [ndiv, nsub, nmul, hm]
  · have hb : nge (some p) (some m) = false := by
      simp only [nge, decide_eq_false_iff_not, not_le]
      exact h
    rw [momentum_status_some, hb]
    simp [ndiv, nsub, nmul, hm]
  · rw [momentum_status_some]
    simp [nge, ndiv, nsub, nmul]

/-- Witness for claim C7: the amended statement applied at price 110 and
MA 100. -/
theorem claim_C7_witness :
    (100 : ℚ) ≠ 0 ∧
    momentum_status (some 110) (some 100) =
      MomStatus.above (some (((110 : ℚ) - 100) / 100 * 100)) :=
  ⟨by norm_num, (claim_C7_thm 110 100 (by norm_num)).1 (by norm_num)⟩

/-! ## Not-membership helper lemmas -/

lemma notMem_spy (st : MarketState) {m : String} (h1 : m ≠ m_fell)
    (h2 : m ≠ m_remain) (h3 : m ≠ m_climb) : m ∉ seg_spy st := by
  intro h
  rcases mem_seg_spy h with he | he | he
  · exact h1 he
  · exact h2 he
  · exact h3 he

lemma notMem_vix (st : MarketState) {m : String} {c : Char}
    (hm : m.data.head? = some c) (hM : c ≠ 'M') : m ∉ seg_vix st := by
  intro h
  rcases mem_seg_vix h with he | he
  · exact ne_of_head hm (head_m_vhigh _) hM he
  · exact ne_of_head hm (head_m_elev _) hM he

lemma notMem_yield (st : MarketState) {m : String} {c : Char}
    (hm : m.data.head? = some c) (h1 : c ≠ '1') : m ∉ seg_yield st :=
  fun h => ne_of_head hm (head_m_yield _) h1 (mem_seg_yield h)

lemma notMem_breadth (st : MarketState) {m : String} {c : Char}
    (hm : m.data.head? = some c) (hO : c ≠ 'O') (hA : c ≠ '*') :
    m ∉ seg_breadth st := by
  intro h
  rcases mem_seg_breadth h with he | he
  · exact ne_of_head hm (head_weak _) hO he
  · exact ne_of_head hm (head_strong _) hA he

lemma notMem_lead (st : MarketState) {m : String} (h5 : m ≠ msg_xly_strong)
    (h6 : m ≠ msg_xlp_strong) : m ∉ seg_lead st := by
  intro h
  rcases mem_seg_lead h with he | he
  · exact h5 he
  · exact h6 he

lemma notMem_tlt (st : MarketState) {m : String} (h7 : m ≠ m_tlt) :
    m ∉ seg_tlt st :=
  fun h => h7 (mem_seg_tlt h)

/-! ## Claim C4 -/

/-- Claim C4 (confirmed): when SPY's latest price is below its latest 200-day
MA while the prior period's price was at or above the prior period's MA,
exactly one SPY trend alert fires — the edge-triggered "fell below" message —
and neither the steady-state "remains below" nor the "climbed back above"
message appears. -/
theorem claim_C4_thm (st : MarketState) (p ma pp pma : ℚ)
    (hpres : st.present "SPY" = true)
    (e1 : st.latest_price "SPY" = some p) (e2 : st.latest_ma "SPY" = some ma)
    (e3 : st.prev_price "SPY" = some pp) (e4 : st.prev_ma "SPY" = some pma)
    (h1 : p < ma) (h2 : pma ≤ pp) :
    (alerts st).count m_fell = 1 ∧ m_remain ∉ alerts st ∧ m_climb ∉ alerts st := by
  have hb1 : nlt (some p) (some ma) = true := by
    simp only [nlt, decide_eq_true_eq]
    exact h1
  have hb2 : nge (some pp) (some pma) = true := by
    simp only [nge, decide_eq_true_eq]
    exact h2
  have hseg : seg_spy st = [m_fell] := by
    unfold seg_spy
    rw [hpres, e1, e2, e3, e4, hb1, hb2]
    simp
  have hSf : (m_fell).data.head? = some 'S' := rfl
  have hSr : (m_remain).data.head? = some 'S' := rfl
  have hSc : (m_climb).data.head? = some 'S' := rfl
  refine ⟨?_, ?_, ?_⟩
  · unfold alerts
    simp only [List.count_append]
    rw [hseg]
    rw [List.count_eq_zero.2 (notMem_vix st hSf (by decide)),
      List.count_eq_zero.2 (notMem_yield st hSf (by decide)),
      List.count_eq_zero.2 (notMem_breadth st hSf (by decide) (by decide)),
      List.count_eq_zero.2 (notMem_lead st (by decide) (by decide)),
      List.count_eq_zero.2 (notMem_tlt st (by decide))]
    simp
  · intro h
    rcases mem_alerts.1 h with hc | hc | hc | hc | hc | hc
    · rw [hseg] at hc
      simp only [List.mem_singleton] at hc
      exact absurd hc (by decide)
    · exact notMem_vix st hSr (by decide) hc
    · exact notMem_yield st hSr (by decide) hc
    · exact notMem_breadth st hSr (by decide) (by decide) hc
    · exact notMem_lead st (by decide) (by decide) hc
    · exact notMem_tlt st (by decide) hc
  · intro h
    rcases mem_alerts.1 h with hc | hc | hc | hc | hc | hc
    · rw [hseg] at hc
      simp only [List.mem_singleton] at hc
      exact absurd hc (by decide)
    · exact notMem_vix st hSc (by decide) hc
    · exact notMem_yield st hSc (by decide) hc
    · exact notMem_breadth st hSc (by decide) (by decide) hc
    · exact notMem_lead st (by decide) (by decide) hc
    · exact notMem_tlt st (by decide) hc

/-- Witness for claim C4: the spec's end-to-end scenario 1 (SPY 95 vs MA 100
now, 101 vs 100 before). -/
theorem claim_C4_witness :
    (alerts cs4).count m_fell = 1 ∧ m_remain ∉ alerts cs4 ∧ m_climb ∉ alerts cs4 :=
  claim_C4_thm cs4 95 100 101 100 (by decide) (by decide) (by decide) (by decide)
    (by decide) (by norm_num) (by norm_num)

/-! ## Claims C6 and C10 -/

lemma head_m_fell : m_fell.data.head? = some 'S' := rfl

lemma head_m_remain : m_remain.data.head? = some 'S' := rfl

lemma head_m_climb : m_climb.data.head? = some 'S' := rfl

lemma head_xly : msg_xly_strong.data.head? = some 'C' := rfl

lemma head_xlp : msg_xlp_strong.data.head? = some 'C' := rfl

lemma head_m_tlt : m_tlt.data.head? = some 'T' := rfl

/-- A volatility "elevated" message can only enter the alert list through
the VIX segment. -/
lemma m_elev_notMem_alerts (st : MarketState)
    (hv : ∀ w, m_elev w ∉ seg_vix st) (w : NVal) : m_elev w ∉ alerts st := by
  intro h
  rcases mem_alerts.1 h with hc | hc | hc | hc | hc | hc
  · exact notMem_spy st (ne_of_head (head_m_elev w) head_m_fell (by decide))
      (ne_of_head (head_m_elev w) head_m_remain (by decide))
      (ne_of_head (head_m_elev w) head_m_climb (by decide)) hc
  · exact hv w hc
  · exact notMem_yield st (head_m_elev w) (by decide) hc
  · exact notMem_breadth st (head_m_elev w) (by decide) (by decide) hc
  · exact notMem_lead st (ne_of_head (head_m_elev w) head_xly (by decide))
      (ne_of_head (head_m_elev w) head_xlp (by decide)) hc
  · exact notMem_tlt st (ne_of_head (head_m_elev w) head_m_tlt (by decide)) hc

/-- A volatility "very high" message can only enter the alert list through
the VIX segment. -/
lemma m_vhigh_notMem_alerts (st : MarketState)
    (hv : ∀ w, m_vhigh w ∉ seg_vix st) (w : NVal) : m_vhigh w ∉ alerts st := by
  intro h
  rcases mem_alerts.1 h with hc | hc | hc | hc | hc | hc
  · exact notMem_spy st (ne_of_head (head_m_vhigh w) head_m_fell (by decide))
      (ne_of_head (head_m_vhigh w) head_m_remain (by decide))
      (ne_of_head (head_m_vhigh w) head_m_climb (by decide)) hc
  · exact hv w hc
  · exact notMem_yield st (head_m_vhigh w) (by decide) hc
  · exact notMem_breadth st (head_m_vhigh w) (by decide) (by decide) hc
  · exact notMem_lead st (ne_of_head (head_m_vhigh w) head_xly (by decide))
      (ne_of_head (head_m_vhigh w) head_xlp (by decide)) hc
  · exact notMem_tlt st (ne_of_head (head_m_vhigh w) head_m_tlt (by decide)) hc

/-- A volatility "very high" message can only enter the alert list through
the VIX segment, and conversely. -/
lemma vhigh_mem_alerts_iff (st : MarketState) (v : NVal) :
    m_vhigh v ∈ alerts st ↔ m_vhigh v ∈ seg_vix st := by
  constructor
  · intro h
    rcases mem_alerts.1 h with hc | hc | hc | hc | hc | hc
    · exact absurd hc (notMem_spy st
        (ne_of_head (head_m_vhigh v) head_m_fell (by decide))
        (ne_of_head (head_m_vhigh v) head_m_remain (by decide))
        (ne_of_head (head_m_vhigh v) head_m_climb (by decide)))
    · exact hc
    · exact absurd hc (notMem_yield st (head_m_vhigh v) (by decide))
    · exact absurd hc (notMem_breadth st (head_m_vhigh v) (by decide) (by decide))
    · exact absurd hc (notMem_lead st
        (ne_of_head (head_m_vhigh v) head_xly (by decide))
        (ne_of_head (head_m_vhigh v) head_xlp (by decide)))
    · exact absurd hc (notMem_tlt st
        (ne_of_head (head_m_vhigh v) head_m_tlt (by decide)))
  · intro h
    exact mem_alerts.2 (Or.inr (Or.inl h))

/-- A volatility "elevated" message can only enter the alert list through
the VIX segment, and conversely. -/
lemma elev_mem_alerts_iff (st : MarketState) (v : NVal) :
    m_elev v ∈ alerts st ↔ m_elev v ∈ seg_vix st := by
  constructor
  · intro h
    rcases mem_alerts.1 h with hc | hc | hc | hc | hc | hc
    · exact absurd hc (notMem_spy st
        (ne_of_head (head_m_elev v) head_m_fell (by decide))
        (ne_of_head (head_m_elev v) head_m_remain (by decide))
        (ne_of_head (head_m_elev v) head_m_climb (by decide)))
    · exact hc
    · exact absurd hc (notMem_yield st (head_m_elev v) (by decide))
    · exact absurd hc (notMem_breadth st (head_m_elev v) (by decide) (by decide))
    · exact absurd hc (notMem_lead st
        (ne_of_head (head_m_elev v) head_xly (by decide))
        (ne_of_head (head_m_elev v) head_xlp (by decide)))
    · exact absurd hc (notMem_tlt st
        (ne_of_head (head_m_elev v) head_m_tlt (by decide)))
  · intro h
    exact mem_alerts.2 (Or.inr (Or.inl h))

/-- The VIX segment is empty, one "very high" message, or one "elevated"
message. -/
lemma seg_vix_cases (st : MarketState) :
    seg_vix st = [] ∨ seg_vix st = [m_vhigh (vix_level st)] ∨
      seg_vix st = [m_elev (vix_level st)] := by
  unfold seg_vix
  split
  · split
    · exact Or.inr (Or.inl rfl)
    · exact Or.inr (Or.inr rfl)
  · exact Or.inl rfl

lemma seg_vix_length (st : MarketState) : (seg_vix st).length ≤ 1 := by
  rcases seg_vix_cases st with h | h | h <;> rw [h] <;> simp

/-- A "very high" message occurs in the cycle's output exactly as often as
in the VIX segment. -/
lemma vhigh_count_alerts (st : MarketState) (v : NVal) :
    (alerts st).count (m_vhigh v) = (seg_vix st).count (m_vhigh v) := by
  unfold alerts
  simp only [List.count_append]
  rw [List.count_eq_zero.2 (notMem_spy st
      (ne_of_head (head_m_vhigh v) head_m_fell (by decide))
      (ne_of_head (head_m_vhigh v) head_m_remain (by decide))
      (ne_of_head (head_m_vhigh v) head_m_climb (by decide))),
    List.count_eq_zero.2 (notMem_yield st (head_m_vhigh v) (by decide)),
    List.count_eq_zero.2 (notMem_breadth st (head_m_vhigh v) (by decide) (by decide)),
    List.count_eq_zero.2 (notMem_lead st
      (ne_of_head (head_m_vhigh v) head_xly (by decide))
      (ne_of_head (head_m_vhigh v) head_xlp (by decide))),
    List.count_eq_zero.2 (notMem_tlt st
      (ne_of_head (head_m_vhigh v) head_m_tlt (by decide)))]
  omega

/-- An "elevated" message occurs in the cycle's output exactly as often as
in the VIX segment. -/
lemma elev_count_alerts (st : MarketState) (v : NVal) :
    (alerts st).count (m_elev v) = (seg_vix st).count (m_elev v) := by
  unfold alerts
  simp only [List.count_append]
  rw [List.count_eq_zero.2 (notMem_spy st
      (ne_of_head (head_m_elev v) head_m_fell (by decide))
      (ne_of_head (head_m_elev v) head_m_remain (by decide))
      (ne_of_head (head_m_elev v) head_m_climb (by decide))),
    List.count_eq_zero.2 (notMem_yield st (head_m_elev v) (by decide)),
    List.count_eq_zero.2 (notMem_breadth st (head_m_elev v) (by decide) (by decide)),
    List.count_eq_zero.2 (notMem_lead st
      (ne_of_head (head_m_elev v) head_xly (by decide))
      (ne_of_head (head_m_elev v) head_xlp (by decide))),
    List.count_eq_zero.2 (notMem_tlt st
      (ne_of_head (head_m_elev v) head_m_tlt (by decide)))]
  omega

/-- Claim C6 (confirmed): in every cycle at most one volatility alert
appears — each volatility-rendered message occurs in the output exactly as
often as in the VIX segment, which holds at most one entry, and the two
tiers never co-occur.  When the latest VIX value is at least 30, the "very
high" alert fires exactly once, any "very high" message in the output is
that one, and no "elevated" alert appears — the higher tier preempts the
lower one. -/
theorem claim_C6_thm (st : MarketState) :
    ((seg_vix st).length ≤ 1 ∧
      (∀ v, (alerts st).count (m_vhigh v) = (seg_vix st).count (m_vhigh v)) ∧
      (∀ v, (alerts st).count (m_elev v) = (seg_vix st).count (m_elev v)) ∧
      (∀ v w, ¬(m_vhigh v ∈ alerts st ∧ m_elev w ∈ alerts st))) ∧
    (∀ v : ℚ, vix_level st = some v → 30 ≤ v →
      (alerts st).count (m_vhigh (some v)) = 1 ∧
      (∀ w, m_elev w ∉ alerts st) ∧
      (∀ w, m_vhigh w ∈ alerts st → m_vhigh w = m_vhigh (some v))) := by
  refine ⟨⟨seg_vix_length st, vhigh_count_alerts st, elev_count_alerts st, ?_⟩, ?_⟩
  · rintro v w ⟨h1, h2⟩
    have h1' := (vhigh_mem_alerts_iff st v).1 h1
    have h2' := (elev_mem_alerts_iff st w).1 h2
    rcases seg_vix_cases st with h | h | h <;> rw [h] at h1' h2'
    · simp at h1'
    · simp only [List.mem_singleton] at h2'
      exact (m_vhigh_ne_elev _ _) h2'.symm
    · simp only [List.mem_singleton] at h1'
      exact (m_vhigh_ne_elev _ _) h1'
  · intro v h1 h2
    have hgt : ngt (some v) (some 20) = true := by
      simp only [ngt, decide_eq_true_eq]
      linarith
    have hge : nge (some v) (some 30) = true := by
      simp only [nge, decide_eq_true_eq]
      exact h2
    have hseg : seg_vix st = [m_vhigh (some v)] := by
      unfold seg_vix
      rw [h1, hgt, hge]
      simp
    refine ⟨?_, ?_, ?_⟩
    · rw [vhigh_count_alerts st (some v), hseg]
      simp
    · intro w hw
      have hw' := (elev_mem_alerts_iff st w).1 hw
      rw [hseg] at hw'
      simp only [List.mem_singleton] at hw'
      exact (m_vhigh_ne_elev (some v) w) hw'.symm
    · intro w hw
      have hw' := (vhigh_mem_alerts_iff st w).1 hw
      rw [hseg] at hw'
      simp only [List.mem_singleton] at hw'
      exact hw'

/-- Witness for claim C6: the spec's end-to-end scenario 2 (VIX = 32), and
the at-most-one clause instantiated at a VIX-25 cycle from the elevated
band. -/
theorem claim_C6_witness :
    (alerts cs6).count (m_vhigh (some 32)) = 1 ∧
    (∀ w, m_elev w ∉ alerts cs6) ∧
    (seg_vix cs6e).length ≤ 1 ∧
    (∀ v w, ¬(m_vhigh v ∈ alerts cs6e ∧ m_elev w ∈ alerts cs6e)) :=
  ⟨((claim_C6_thm cs6).2 32 (by decide) (by norm_num)).1,
    ((claim_C6_thm cs6).2 32 (by decide) (by norm_num)).2.1,
    (claim_C6_thm cs6e).1.1,
    (claim_C6_thm cs6e).1.2.2.2⟩

/-- Claim C10 (confirmed): the volatility tier boundaries differ in
inclusivity — a latest VIX of exactly 20 (or below) emits no volatility
alert of either tier, while a latest VIX of exactly 30 fires the "very
high" tier. -/
theorem claim_C10_thm (st : MarketState) (v : ℚ) (h : vix_level st = some v) :
    (v ≤ 20 → ∀ w, m_vhigh w ∉ alerts st ∧ m_elev w ∉ alerts st) ∧
    (v = 30 → m_vhigh (some 30) ∈ alerts st ∧ ∀ w, m_elev w ∉ alerts st) := by
  constructor
  · intro hle w
    have hgt : ngt (some v) (some 20) = false := by
      simp only [ngt, decide_eq_false_iff_not, not_lt]
      exact hle
    have hseg : seg_vix st = [] := by
      unfold seg_vix
      rw [h, hgt]
      simp
    have hempty : ∀ m : String, m ∉ seg_vix st := by
      rw [hseg]
      intro m hm
      simp at hm
    exact ⟨m_vhigh_notMem_alerts st (fun w' => hempty _) w,
      m_elev_notMem_alerts st (fun w' => hempty _) w⟩
  · intro h30
    subst h30
    have hgt : ngt (some (30 : ℚ)) (some 20) = true := by decide
    have hge : nge (some (30 : ℚ)) (some 30) = true := by decide
    have hseg : seg_vix st = [m_vhigh (some 30)] := by
      unfold seg_vix
      rw [h, hgt, hge]
      simp
    constructor
    · refine mem_alerts.2 (Or.inr (Or.inl ?_))
      rw [hseg]
      simp
    · refine m_elev_notMem_alerts st (fun w hw => ?_)
      rw [hseg] at hw
      simp only [List.mem_singleton] at hw
      exact (m_vhigh_ne_elev (some 30) w) hw.symm

/-- Witness for claim C10: applied at VIX exactly 20 and at VIX exactly
30. -/
theorem claim_C10_witness :
    (m_vhigh (some 20) ∉ alerts cs10a ∧ m_elev (some 20) ∉ alerts cs10a) ∧
    m_vhigh (some 30) ∈ alerts cs10b :=
  ⟨(claim_C10_thm cs10a 20 (by decide)).1 (by norm_num) (some 20),
    ((claim_C10_thm cs10b 30 (by decide)).2 rfl).1⟩

/-! ## Claim C5 -/

lemma weak_ne_strong (n m : ℕ) : breadth_weak_msg n ≠ breadth_strong_msg m :=
  ne_of_head (head_weak n) (head_strong m) (by decide)

/-- A weak-breadth message can only enter the alert list through the
breadth segment. -/
lemma weak_mem_alerts_iff (st : MarketState) (n : ℕ) :
    breadth_weak_msg n ∈ alerts st ↔ breadth_weak_msg n ∈ seg_breadth st := by
  constructor
  · intro h
    rcases mem_alerts.1 h with hc | hc | hc | hc | hc | hc
    · exact absurd hc (notMem_spy st (ne_of_head (head_weak n) head_m_fell (by decide))
        (ne_of_head (head_weak n) head_m_remain (by decide))
        (ne_of_head (head_weak n) head_m_climb (by decide)))
    · exact absurd hc (notMem_vix st (head_weak n) (by decide))
    · exact absurd hc (notMem_yield st (head_weak n) (by decide))
    · exact hc
    · exact absurd hc (notMem_lead st (ne_of_head (head_weak n) head_xly (by decide))
        (ne_of_head (head_weak n) head_xlp (by decide)))
    · exact absurd hc (notMem_tlt st (ne_of_head (head_weak n) head_m_tlt (by decide)))
  · intro h
    exact mem_alerts.2 (Or.inr (Or.inr (Or.inr (Or.inl h))))

/-- A strong-breadth message can only enter the alert list through the
breadth segment. -/
lemma strong_mem_alerts_iff (st : MarketState) (n : ℕ) :
    breadth_strong_msg n ∈ alerts st ↔ breadth_strong_msg n ∈ seg_breadth st := by
  constructor
  · intro h
    rcases mem_alerts.1 h with hc | hc | hc | hc | hc | hc
    · exact absurd hc (notMem_spy st (ne_of_head (head_strong n) head_m_fell (by decide))
        (ne_of_head (head_strong n) head_m_remain (by decide))
        (ne_of_head (head_strong n) head_m_climb (by decide)))
    · exact absurd hc (notMem_vix st (head_strong n) (by decide))
    · exact absurd hc (notMem_yield st (head_strong n) (by decide))
    · exact hc
    · exact absurd hc (notMem_lead st (ne_of_head (head_strong n) head_xly (by decide))
        (ne_of_head (head_strong n) head_xlp (by decide)))
    · exact absurd hc (notMem_tlt st (ne_of_head (head_strong n) head_m_tlt (by decide)))
  · intro h
    exact mem_alerts.2 (Or.inr (Or.inr (Or.inr (Or.inl h))))

lemma weak_mem_breadth_iff (st : MarketState) :
    breadth_weak_msg (sectors_above st) ∈ seg_breadth st ↔ sectors_above st ≤ 3 := by
  unfold seg_breadth
  by_cases h3 : sectors_above st ≤ 3
  · rw [if_pos h3]
    simp [h3]
  · rw [if_neg h3]
    by_cases h8 : 8 ≤ sectors_above st
    · rw [if_pos h8]
      constructor
      · intro h
        exact absurd (List.mem_singleton.1 h) (weak_ne_strong _ _)
      · intro h
        exact absurd h h3
    · rw [if_neg h8]
      simp [h3]

lemma strong_mem_breadth_iff (st : MarketState) :
    breadth_strong_msg (sectors_above st) ∈ seg_breadth st ↔ 8 ≤ sectors_above st := by
  unfold seg_breadth
  by_cases h3 : sectors_above st ≤ 3
  · rw [if_pos h3]
    constructor
    · intro h
      exact absurd (List.mem_singleton.1 h).symm (weak_ne_strong _ _)
    · intro h
      omega
  · rw [if_neg h3]
    by_cases h8 : 8 ≤ sectors_above st
    · rw [if_pos h8]
      simp [h8]
    · rw [if_neg h8]
      simp [h8]

/-- `strContains` holds when the needle is a prefix of the part after a
fixed lead-in. -/
lemma strContains_append_at (pre rest needle : String)
    (h : needle.data.isPrefixOf rest.data = true) :
    strContains (pre ++ rest) needle = true := by
  unfold strContains
  rw [List.any_eq_true]
  refine ⟨pre.data.length, List.mem_range.2 ?_, ?_⟩
  · rw [String.data_append, List.length_append]
    omega
  · rw [String.data_append, List.drop_left]
    exact h

lemma prefix_append_left (x u v : List Char) (h : u <+: v) :
    (x ++ u) <+: (x ++ v) := by
  obtain ⟨t, ht⟩ := h
  exact ⟨t, by rw [List.append_assoc, ht]⟩

/-- The weak-breadth message contains the interpolated fragment
`"{n} of 11"`. -/
lemma weak_contains (n : ℕ) :
    strContains (breadth_weak_msg n) (toString n ++ " of 11") = true := by
  refine strContains_append_at weak_pre (toString n ++ weak_suf) _ ?_
  rw [List.isPrefixOf_iff_prefix, String.data_append, String.data_append]
  refine prefix_append_left _ _ _ ?_
  decide

/-- The strong-breadth message contains the interpolated fragment
`"{n} of 11"`. -/
lemma strong_contains (n : ℕ) :
    strContains (breadth_strong_msg n) (toString n ++ " of 11") = true := by
  refine strContains_append_at strong_pre (toString n ++ strong_suf) _ ?_
  rw [List.isPrefixOf_iff_prefix, String.data_append, String.data_append]
  refine prefix_append_left _ _ _ ?_
  decide

/-- Claim C5 (confirmed): with the 11 configured sector ETFs, the
weak-breadth alert fires exactly when at most 3 sectors are above their
200-day MA, the strong-breadth alert fires exactly when at least 8 are, the
two alerts never appear together in one cycle's output, and each message
interpolates the count alongside the set size 11. -/
theorem claim_C5_thm (st : MarketState) :
    sector_etfs.length = 11 ∧
    (breadth_weak_msg (sectors_above st) ∈ alerts st ↔ sectors_above st ≤ 3) ∧
    (breadth_strong_msg (sectors_above st) ∈ alerts st ↔ 8 ≤ sectors_above st) ∧
    ¬(breadth_weak_msg (sectors_above st) ∈ alerts st ∧
      breadth_strong_msg (sectors_above st) ∈ alerts st) ∧
    strContains (breadth_weak_msg (sectors_above st))
      (toString (sectors_above st) ++ " of 11") = true ∧
    strContains (breadth_strong_msg (sectors_above st))
      (toString (sectors_above st) ++ " of 11") = true := by
  have hw := (weak_mem_alerts_iff st (sectors_above st)).trans (weak_mem_breadth_iff st)
  have hs := (strong_mem_alerts_iff st (sectors_above st)).trans (strong_mem_breadth_iff st)
  refine ⟨by decide, hw, hs, ?_, weak_contains _, strong_contains _⟩
  rintro ⟨h1, h2⟩
  have := hw.1 h1
  have := hs.1 h2
  omega

/-- Witness for claim C5: the spec's end-to-end scenario 3, a cycle with
exactly 3 of 11 sectors above their 200-day MA. -/
theorem claim_C5_witness :
    sectors_above cs5 = 3 ∧ breadth_weak_msg (sectors_above cs5) ∈ alerts cs5 :=
  ⟨by decide, (claim_C5_thm cs5).2.1.mpr (by decide)⟩

/-! ## Claim C2 -/

/-- A leadership message can only enter the alert list through the
leadership segment. -/
lemma lead_mem_alerts_iff (st : MarketState) {m : String}
    (hm : m = msg_xly_strong ∨ m = msg_xlp_strong) :
    m ∈ alerts st ↔ m ∈ seg_lead st := by
  have hc : m.data.head? = some 'C' := by
    rcases hm with h | h <;> rw [h]
    · exact head_xly
    · exact head_xlp
  constructor
  · intro h
    rcases mem_alerts.1 h with hx | hx | hx | hx | hx | hx
    · refine absurd hx (notMem_spy st ?_ ?_ ?_) <;>
        rcases hm with h | h <;> rw [h] <;> decide
    · exact absurd hx (notMem_vix st hc (by decide))
    · exact absurd hx (notMem_yield st hc (by decide))
    · exact absurd hx (notMem_breadth st hc (by decide) (by decide))
    · exact hx
    · exact absurd hx (notMem_tlt st (ne_of_head hc head_m_tlt (by decide)))
  · intro h
    exact mem_alerts.2 (Or.inr (Or.inr (Or.inr (Or.inr (Or.inl h)))))

lemma nge_none_left (b : NVal) : nge none b = false := by
  cases b <;> rfl

lemma nge_none_right (a : NVal) : nge a none = false := by
  cases a <;> rfl

/-- Claim C2 counterexample: a cycle in which every ticker is present as a
column (so no access raises) but XLY's latest 200-day MA is NaN while XLP
trades above its MA.  The XLP-leadership alert still fires (together with
the weak-breadth alert), contradicting "neither sector-leadership alert is
emitted" when XLY's MA is missing. -/
theorem claim_C2_counterexample :
    (∀ t, csC2.present t = true) ∧
    csC2.latest_ma "XLY" = none ∧
    csC2.latest_price "XLY" = some 100 ∧
    alerts csC2 = [breadth_weak_msg 1, msg_xlp_strong] ∧
    msg_xlp_strong ∈ alerts csC2 := by
  refine ⟨fun t => rfl, by decide, by decide, by decide, ?_⟩
  rw [show alerts csC2 = [breadth_weak_msg 1, msg_xlp_strong] from by decide]
  simp

/-- Claim C2 (amended): with every ticker present as a column (the
realizable missing-data mode — NaN values from short or gapped history),
a NaN latest price or NaN latest MA of XLY (resp. XLP) makes that
ticker's "above" flag evaluate to false instead of propagating a no-data
state; so the affected ticker's own leadership alert never fires, but the
opposite leadership alert still fires whenever the other ticker's latest
price is at or above its latest MA. -/
theorem claim_C2_thm (st : MarketState) :
    (st.present "XLY" = true →
      (st.latest_price "XLY" = none ∨ st.latest_ma "XLY" = none) →
      xly_above st = false ∧
      msg_xly_strong ∉ alerts st ∧
      (st.present "XLP" = true →
        nge (st.latest_price "XLP") (st.latest_ma "XLP") = true →
        msg_xlp_strong ∈ alerts st)) ∧
    (st.present "XLP" = true →
      (st.latest_price "XLP" = none ∨ st.latest_ma "XLP" = none) →
      xlp_above st = false ∧
      msg_xlp_strong ∉ alerts st ∧
      (st.present "XLY" = true →
        nge (st.latest_price "XLY") (st.latest_ma "XLY") = true →
        msg_xly_strong ∈ alerts st)) := by
  constructor
  · intro hpres hnan
    have hxly : xly_above st = false := by
      unfold xly_above price_get ma_get
      rw [hpres]
      rcases hnan with h | h <;> rw [h] <;>
        simp [nge_none_left, nge_none_right]
    refine ⟨hxly, ?_, ?_⟩
    · rw [lead_mem_alerts_iff st (Or.inl rfl)]
      intro h
      unfold seg_lead at h
      rw [hxly] at h
      simp only [Bool.false_and, Bool.not_false, Bool.and_true] at h
      split at h
      · rename_i hcond
        simp at hcond
      · split at h
        · simp only [List.mem_singleton] at h
          exact absurd h (by decide)
        · simp at h
    · intro hp hcmp
      have hxlp : xlp_above st = true := by
        unfold xlp_above price_get ma_get
        rw [hp]
        exact hcmp
      have hseg : seg_lead st = [msg_xlp_strong] := by
        unfold seg_lead
        rw [hxly, hxlp]
        simp
      rw [lead_mem_alerts_iff st (Or.inr rfl), hseg]
      simp
  · intro hpres hnan
    have hxlp : xlp_above st = false := by
      unfold xlp_above price_get ma_get
      rw [hpres]
      rcases hnan with h | h <;> rw [h] <;>
        simp [nge_none_left, nge_none_right]
    refine ⟨hxlp, ?_, ?_⟩
    · rw [lead_mem_alerts_iff st (Or.inr rfl)]
      intro h
      unfold seg_lead at h
      rw [hxlp] at h
      simp only [Bool.false_and, Bool.not_false, Bool.and_true, Bool.and_false] at h
      split at h
      · simp only [List.mem_singleton] at h
        exact absurd h (by decide)
      · split at h
        · rename_i hcond
          simp at hcond
        · simp at h
    · intro hp hcmp
      have hxly : xly_above st = true := by
        unfold xly_above price_get ma_get
        rw [hp]
        exact hcmp
      have hseg : seg_lead st = [msg_xly_strong] := by
        unfold seg_lead
        rw [hxly, hxlp]
        simp
      rw [lead_mem_alerts_iff st (Or.inl rfl), hseg]
      simp

/-- Witness for claim C2: the amended statement applied to the all-present
cycle with XLY's MA NaN and XLP above its MA. -/
theorem claim_C2_witness :
    xly_above csC2 = false ∧
    msg_xly_strong ∉ alerts csC2 ∧
    msg_xlp_strong ∈ alerts csC2 :=
  have h := (claim_C2_thm csC2).1 (by decide) (Or.inr (by decide))
  ⟨h.1, h.2.1, h.2.2 (by decide) (by decide)⟩

/-! ## Claim C1 -/

lemma strLower_append (a b : String) :
    strLower (a ++ b) = strLower a ++ strLower b := by
  apply congrArg String.mk
  exact List.map_append Char.toLower a.data b.data

lemma strContains_append_right (a b needle : String)
    (h : strContains b needle = true) : strContains (a ++ b) needle = true := by
  unfold strContains at h ⊢
  rw [List.any_eq_true] at h ⊢
  obtain ⟨i, hi, hp⟩ := h
  rw [List.mem_range] at hi
  refine ⟨a.data.length + i, List.mem_range.2 ?_, ?_⟩
  · rw [String.data_append, List.length_append]
    omega
  · rw [String.data_append, List.drop_append]
    exact hp

lemma strContains_suffix3 (a b c : String) {w : String} (h : strContains c w = true) :
    strContains (a ++ (b ++ c)) w = true :=
  strContains_append_right a (b ++ c) w (strContains_append_right b c w h)

/-- `classify` answers warning as soon as one keyword occurs in the
lowercased message. -/
lemma classify_eq_warning {msg : String} (w : String) (hw : w ∈ severity_keywords)
    (h : strContains (strLower msg) w = true) : classify msg = Severity.warning := by
  unfold classify
  rw [if_pos (List.any_eq_true.2 ⟨w, hw, h⟩)]

/-- Claim C1 counterexample: the severity of a displayed alert is derived
from the rendered message text.  In a cycle whose only fired alert is the
risk-on XLY-leadership alert, that alert is displayed with warning severity
(its text contains the keyword "lag"), while the equally risk-on
strong-breadth message is classified success — so severity is not a static
function of the rule's semantic polarity, and it does depend on the words
of the rendered message. -/
theorem claim_C1_counterexample :
    displayed csC1 = [⟨"🔔 " ++ msg_xly_strong, Severity.warning⟩] ∧
    classify msg_xly_strong = Severity.warning ∧
    classify (breadth_strong_msg 8) = Severity.success ∧
    strContains (strLower msg_xly_strong) "risk-on" = true ∧
    strContains (strLower (breadth_strong_msg 8)) "risk-on" = true := by
  refine ⟨by decide, by decide, by decide, by decide, by decide⟩

/-- Claim C1 (amended): the display loop tags every fired alert with
`classify` of its rendered message — a keyword scan of the lowercased text —
so each concrete message gets a fixed severity of warning or success (the
placeholder info alert appears only when nothing fired, and critical is
never used): every risk-off/caution message is warning, the SPY-recovery
and strong-breadth messages are success, but the risk-on XLY-leadership
message is also warning because its text contains "lag". -/
theorem claim_C1_thm :
    (∀ st m, m ∈ alerts st → Alert.mk ("🔔 " ++ m) (classify m) ∈ displayed st) ∧
    (∀ st, alerts st = [] → displayed st = [⟨no_alerts_msg, Severity.info⟩]) ∧
    classify m_fell = Severity.warning ∧
    classify m_remain = Severity.warning ∧
    classify m_climb = Severity.success ∧
    (∀ v, classify (m_vhigh v) = Severity.warning) ∧
    (∀ v, classify (m_elev v) = Severity.warning) ∧
    (∀ y, classify (m_yield y) = Severity.warning) ∧
    (∀ n, classify (breadth_weak_msg n) = Severity.warning) ∧
    (∀ n, n ≤ 11 → classify (breadth_strong_msg n) = Severity.success) ∧
    classify msg_xly_strong = Severity.warning ∧
    classify msg_xlp_strong = Severity.warning ∧
    classify m_tlt = Severity.warning := by
  refine ⟨?_, ?_, by decide, by decide, by decide, ?_, ?_, ?_, ?_, ?_,
    by decide, by decide, by decide⟩
  · intro st m h
    have hne : alerts st ≠ [] := List.ne_nil_of_mem h
    unfold displayed
    rw [if_neg (by simpa [List.isEmpty_iff] using hne)]
    exact List.mem_map_of_mem _ h
  · intro st he
    unfold displayed
    rw [he]
    simp
  · intro v
    refine classify_eq_warning "hedging" (by decide) ?_
    simp only [m_vhigh, strLower_append]
    exact strContains_suffix3 _ _ _ (by decide)
  · intro v
    refine classify_eq_warning "caution" (by decide) ?_
    simp only [m_elev, strLower_append]
    exact strContains_suffix3 _ _ _ (by decide)
  · intro y
    refine classify_eq_warning "pressure" (by decide) ?_
    simp only [m_yield, strLower_append]
    exact strContains_suffix3 _ _ _ (by decide)
  · intro n
    refine classify_eq_warning "weak" (by decide) ?_
    simp only [breadth_weak_msg, strLower_append]
    exact strContains_suffix3 _ _ _ (by decide)
  · intro n hn
    interval_cases n <;> decide

/-- Witness for claim C1: the amended statement applied at the
strong-breadth count 8 and at the cycle whose only alert is the
XLY-leadership message. -/
theorem claim_C1_witness :
    classify (breadth_strong_msg 8) = Severity.success ∧
    Alert.mk ("🔔 " ++ msg_xly_strong) (classify msg_xly_strong) ∈ displayed csC1 :=
  ⟨claim_C1_thm.2.2.2.2.2.2.2.2.2.1 8 (by norm_num),
    claim_C1_thm.1 csC1 msg_xly_strong (by decide)⟩

/-! ## Claim C8 -/

/-- Claim C8 (confirmed, spec-modelled): for a configured position whose
current price is strictly below its stop-loss price, a critical-severity
stop-loss alert fires for that position; a current price above the
stop-loss fires none; and the rule is evaluated once per position,
independently of the remaining positions. -/
theorem claim_C8_thm (p : PortfolioPosition) (ps : List PortfolioPosition)
    (cur : String → Option ℚ) (c : ℚ) (hc : cur p.symbol = some c) :
    (c < p.stop_loss →
      stop_loss_alerts (p :: ps) cur =
        ⟨stop_msg p.symbol, Severity.critical⟩ :: stop_loss_alerts ps cur) ∧
    (p.stop_loss < c → stop_loss_alerts (p :: ps) cur = stop_loss_alerts ps cur) := by
  constructor
  · intro h
    unfold stop_loss_alerts
    rw [List.filterMap_cons]
    simp [hc, h]
  · intro h
    have hnot : ¬c < p.stop_loss := not_lt.2 (le_of_lt h)
    unfold stop_loss_alerts
    rw [List.filterMap_cons]
    simp [hc, hnot]

/-- Witness for claim C8: the spec's end-to-end scenario 4 — AAPL with
stop-loss 130.0 fires a critical alert at price 129.99 and no alert at
130.01. -/
theorem claim_C8_witness :
    stop_loss_alerts [aaplPos] cur1 = [⟨stop_msg "AAPL", Severity.critical⟩] ∧
    stop_loss_alerts [aaplPos] cur2 = [] := by
  constructor
  · have h := (claim_C8_thm aaplPos [] cur1 (12999 / 100) rfl).1
      (by norm_num [aaplPos])
    simpa [stop_loss_alerts] using h
  · have h := (claim_C8_thm aaplPos [] cur2 (13001 / 100) rfl).2
      (by norm_num [aaplPos])
    simpa [stop_loss_alerts] using h

/-! ## Claim C9 -/

lemma appendAll_capacity (l : List Alert) (log : AlertLog) :
    (appendAll log l).capacity = log.capacity := by
  induction l generalizing log with
  | nil => rfl
  | cons a t ih => exact (ih (log.append a)).trans rfl

lemma appendAll_entries (l : List Alert) (cap : ℕ) (e : List Alert)
    (he : e.take cap = e) :
    (appendAll ⟨cap, e⟩ l).entries = (l.reverse ++ e).take cap := by
  induction l generalizing e with
  | nil =>
    simp only [appendAll, List.foldl_nil, List.reverse_nil, List.nil_append]
    exact he.symm
  | cons a t ih =>
    have hstep : appendAll ⟨cap, e⟩ (a :: t) =
        appendAll ⟨cap, (a :: e).take cap⟩ t := rfl
    rw [hstep, ih ((a :: e).take cap) (by rw [List.take_take, min_self]),
      List.reverse_cons, List.append_assoc, List.singleton_append,
      List.take_append_eq_append_take, List.take_append_eq_append_take,
      List.take_take, min_eq_left (by omega)]

/-- Claim C9 (confirmed, spec-modelled): after appending capacity + 1
alerts to an empty Alert Log, `recent(capacity)` is exactly the appended
batch minus its oldest element, in most-recent-first order (so the oldest
appended alert is evicted and all others are retained); append preserves
the capacity. -/
theorem claim_C9_thm (cap : ℕ) (l : List Alert) (h : l.length = cap + 1) :
    AlertLog.recent (appendAll (AlertLog.empty cap) l) cap = l.tail.reverse ∧
    (appendAll (AlertLog.empty cap) l).capacity = cap ∧
    l.tail.reverse.length = cap := by
  obtain ⟨a, t, rfl⟩ : ∃ a t, l = a :: t := by
    cases l with
    | nil => simp at h
    | cons a t => exact ⟨a, t, rfl⟩
  have hlt : t.length = cap := by simpa using h
  have he : (appendAll (AlertLog.empty cap) (a :: t)).entries =
      ((a :: t).reverse ++ []).take cap :=
    appendAll_entries (a :: t) cap [] (by simp)
  rw [List.append_nil] at he
  refine ⟨?_, appendAll_capacity _ _, by simp [hlt]⟩
  unfold AlertLog.recent
  rw [he, List.take_take, min_self, List.reverse_cons,
    List.take_left' (by simp [hlt])]
  rfl

/-- Witness for claim C9: three distinct alerts into a capacity-2 log — the
two most recent remain, most recent first, and the first-appended alert is
gone. -/
theorem claim_C9_witness :
    csLog.length = 2 + 1 ∧
    AlertLog.recent (appendAll (AlertLog.empty 2) csLog) 2 = csLog.tail.reverse ∧
    csLog.tail.reverse =
      [⟨"third", Severity.critical⟩, ⟨"second", Severity.warning⟩] :=
  ⟨by decide, (claim_C9_thm 2 csLog (by decide)).1, by decide⟩
